import Mathlib

/-!
Verification development for the Multi-Armed Bandit (MAB) budget engine of the
omkar-adtech repository (source file `src/unnamed/part_003`, the module built
around `updateArmReward` / `runMABAllocation`).

The pure computational core of the engine is shallowly embedded here:

* JS `number` fields of an arm are modelled as `ℚ` wherever the source only
  performs field arithmetic (`+`, `-`, `*`, `/`, `max`, `Math.round`), so that
  every state-machine operation is executable;
* the UCB1 score (which uses `Math.sqrt` / `Math.log`) is modelled over `ℝ`,
  with `EReal` as the score codomain so that the JS value `Infinity` returned
  for unvisited arms is representable as `⊤`;
* the Redis / Prisma / logging effects of the source are not part of the
  algorithmic state and are dropped: `loadArm`'s initialisation branch becomes
  `initArm`, `updateArmReward` returns the updated arm paired with the
  `changeDetected` flag (which the source only logs), and the `lastUpdated`
  wall-clock field is omitted;
* the random Thompson sampler (`thompsonSample`) is abstracted as a function
  parameter of the scoring step, since only the branch structure and the
  deterministic UCB1 branch are the subject of the properties below.
-/

-- ---------------------------------------------------------------------------
-- Data model (source lines 63-86)
-- ---------------------------------------------------------------------------

/-- Score values as produced by the engine: a finite JS number, or `Infinity`
(the value `calculateUCB1` returns for an unvisited arm, and the initial
`ucbScore` of a fresh arm). Used for the rational (executable) allocation
layer. -/
inductive Score where
  | fin (q : ℚ)
  | inf
deriving DecidableEq

/-- Reasons carried by an `AllocationDecision` (source lines 80-86). -/
inductive Reason where
  | UCB1
  | THOMPSON_SAMPLING
  | CUSUM_RESET
  | MINIMUM_SPEND
deriving DecidableEq

/-- Arm state `MABArm` (source lines 63-78). The `lastUpdated` wall-clock
timestamp is omitted (environment time, irrelevant to the algorithm);
`pulls` is a count and is modelled as `ℕ`; remaining numeric fields are `ℚ`. -/
structure MABArm where
  campaignId : String
  adSetId : String
  pulls : ℕ
  totalReward : ℚ
  avgReward : ℚ
  ucbScore : Score
  alpha : ℚ
  beta : ℚ
  cusumPositive : ℚ
  cusumNegative : ℚ
deriving DecidableEq

-- ---------------------------------------------------------------------------
-- Engine constants (source lines 94-97 and 293)
-- ---------------------------------------------------------------------------

/-- Exploration constant `C = 2.0` of the UCB1 formula (source line 94). -/
noncomputable def EXPLORATION_CONSTANT : ℝ := 2

/-- Cold-start threshold: switch to UCB1 after 30 pulls (source line 95). -/
def COLD_START_THRESHOLD : ℕ := 30

/-- CUSUM detection threshold `5.0` (source line 96). -/
def CUSUM_THRESHOLD : ℚ := 5

/-- CUSUM expected drift magnitude `0.5` (source line 97). -/
def CUSUM_DRIFT_DELTA : ℚ := 1/2

/-- Minimum budget per arm, `10000 * 100` paisa (source line 293). -/
def MIN_BUDGET_PAISA : ℤ := 10000 * 100

-- ---------------------------------------------------------------------------
-- Arm initialisation (source lines 168-188, the absent branch of loadArm)
-- ---------------------------------------------------------------------------

/-- Freshly-initialised arm: the object `loadArm` returns for an absent key
(source lines 174-187), minus the `lastUpdated := Date.now()` field. -/
def initArm (campaignId adSetId : String) : MABArm :=
  { campaignId := campaignId
    adSetId := adSetId
    pulls := 0
    totalReward := 0
    avgReward := 0
    ucbScore := Score.inf
    alpha := 1
    beta := 1
    cusumPositive := 0
    cusumNegative := 0 }

-- ---------------------------------------------------------------------------
-- CUSUM change-point detector (source lines 144-162)
-- ---------------------------------------------------------------------------

/-- CUSUM update, translated field by field from `updateCUSUM`
(source lines 144-162). -/
def updateCUSUM (arm : MABArm) (newReward : ℚ) : MABArm × Bool :=
  let expectedReward := arm.avgReward
  let innovation := newReward - expectedReward - CUSUM_DRIFT_DELTA
  let newCusumPos := max 0 (arm.cusumPositive + innovation)
  let newCusumNeg := max 0 (arm.cusumNegative - innovation - CUSUM_DRIFT_DELTA)
  let changeDetected :=
    decide (newCusumPos > CUSUM_THRESHOLD) || decide (newCusumNeg > CUSUM_THRESHOLD)
  ({ arm with
      cusumPositive := if changeDetected then 0 else newCusumPos
      cusumNegative := if changeDetected then 0 else newCusumNeg },
    changeDetected)

-- ---------------------------------------------------------------------------
-- Reward update (source lines 199-239)
-- ---------------------------------------------------------------------------

/-- Reward update, translated from `updateArmReward` (source lines 199-239).
The source loads the arm, runs the CUSUM detector on the pre-update state,
then folds the reward into the running statistics and the Thompson
pseudo-counts. Persistence is dropped; the result is the arm that would be
saved, paired with the `changeDetected` flag the source logs. -/
def updateArmReward (arm : MABArm) (roasReward : ℚ) : MABArm × Bool :=
  let res := updateCUSUM arm roasReward
  let armAfterCusum := res.1
  let newPulls := armAfterCusum.pulls + 1
  let newTotal := armAfterCusum.totalReward + roasReward
  let newAvg := newTotal / (newPulls : ℚ)
  let isSuccess := decide (roasReward ≥ 2)
  ({ armAfterCusum with
      pulls := newPulls
      totalReward := newTotal
      avgReward := newAvg
      alpha := armAfterCusum.alpha + (if isSuccess then 1 else 0)
      beta := armAfterCusum.beta + (if isSuccess then 0 else 1) },
    res.2)

/-- Iterated reward updates: the arm state after a sequence of
`updateArmReward` calls starting from `arm`. -/
def applyRewards (arm : MABArm) (rewards : List ℚ) : MABArm :=
  rewards.foldl (fun a r => (updateArmReward a r).1) arm

-- ---------------------------------------------------------------------------
-- UCB1 score (source lines 99-102)
-- ---------------------------------------------------------------------------

/-- Finite UCB1 value `avgReward + C * sqrt(ln totalPulls / pulls)`
(source line 101). -/
noncomputable def ucbValue (avgReward : ℚ) (pulls totalPulls : ℕ) : ℝ :=
  (avgReward : ℝ) + EXPLORATION_CONSTANT * Real.sqrt (Real.log totalPulls / pulls)

/-- The function `calculateUCB1` (source lines 99-102): `Infinity` (here `⊤`)
for an unvisited arm, otherwise the finite UCB1 value. -/
noncomputable def calculateUCB1 (arm : MABArm) (totalPulls : ℕ) : EReal :=
  if arm.pulls = 0 then ⊤
  else ((ucbValue arm.avgReward arm.pulls totalPulls : ℝ) : EReal)

-- ---------------------------------------------------------------------------
-- Per-arm scoring step of an allocation cycle (source lines 274-289)
-- ---------------------------------------------------------------------------

/-- Per-arm scoring step of `runMABAllocation` (source lines 274-289):
cold-start arms (`pulls < COLD_START_THRESHOLD`) are scored by a Thompson
sample with reason `THOMPSON_SAMPLING`, warm arms by `calculateUCB1` with
reason `UCB1`. The stochastic sampler is abstracted as the parameter
`sample`. -/
noncomputable def scoreStep (sample : MABArm → ℝ) (totalPulls : ℕ) (arm : MABArm) :
    EReal × Reason :=
  if arm.pulls < COLD_START_THRESHOLD then
    (((sample arm : ℝ) : EReal), Reason.THOMPSON_SAMPLING)
  else
    (calculateUCB1 arm totalPulls, Reason.UCB1)

-- ---------------------------------------------------------------------------
-- Budget computation of an allocation cycle (source lines 291-308)
-- ---------------------------------------------------------------------------

/-- JS `Math.round`: round half toward positive infinity. -/
def jsRound (x : ℚ) : ℤ := ⌊x + 1/2⌋

/-- Normalisation of a score for proportional allocation (source lines 292
and 296): `isFinite(score) ? score : 2`. -/
def normalizeScore (s : Score) : ℚ :=
  match s with
  | Score.fin q => q
  | Score.inf => 2

/-- Budget computation of `runMABAllocation` (source lines 291-308), for a
list of already-computed scores: `totalScore` is the sum of the normalised
scores, each arm gets `max(round(budget * normalizedScore / totalScore),
MIN_BUDGET_PAISA)`. (The source's division is IEEE; in this rational model
division by a zero `totalScore` yields `0` where JS would yield `NaN` — all
properties below are stated away from that degenerate case, which is
unreachable from the engine's own scores.) -/
def allocateBudgets (scores : List Score) (totalDailyBudgetPaisa : ℚ) : List ℤ :=
  let totalScore := (scores.map normalizeScore).sum
  scores.map (fun s =>
    let normalizedScore := normalizeScore s
    let proportion := normalizedScore / totalScore
    let rawBudget := jsRound (totalDailyBudgetPaisa * proportion)
    max rawBudget MIN_BUDGET_PAISA)

-- ---------------------------------------------------------------------------
-- Helper lemmas
-- ---------------------------------------------------------------------------

/-- Projection lemma: `updateArmReward` increments `pulls`. -/
lemma updateArmReward_pulls (arm : MABArm) (r : ℚ) :
    (updateArmReward arm r).1.pulls = arm.pulls + 1 := rfl

/-- Projection lemma: `updateArmReward` adds the reward to `totalReward`. -/
lemma updateArmReward_totalReward (arm : MABArm) (r : ℚ) :
    (updateArmReward arm r).1.totalReward = arm.totalReward + r := rfl

/-- Projection lemma: `updateArmReward` recomputes the arithmetic mean. -/
lemma updateArmReward_avgReward (arm : MABArm) (r : ℚ) :
    (updateArmReward arm r).1.avgReward =
      (arm.totalReward + r) / ((arm.pulls + 1 : ℕ) : ℚ) := rfl

/-- Projection lemma: `alpha` gains 1 exactly on a success (`reward ≥ 2`). -/
lemma updateArmReward_alpha (arm : MABArm) (r : ℚ) :
    (updateArmReward arm r).1.alpha =
      arm.alpha + (if decide (r ≥ 2) then 1 else 0) := rfl

/-- Projection lemma: `beta` gains 1 exactly on a failure (`reward < 2`). -/
lemma updateArmReward_beta (arm : MABArm) (r : ℚ) :
    (updateArmReward arm r).1.beta =
      arm.beta + (if decide (r ≥ 2) then 0 else 1) := rfl

/-- Unfolding lemma for one step of `applyRewards`. -/
lemma applyRewards_cons (arm : MABArm) (r : ℚ) (rs : List ℚ) :
    applyRewards arm (r :: rs) = applyRewards (updateArmReward arm r).1 rs := rfl

/-- On the finite branch (`pulls ≠ 0`), `calculateUCB1` is the coercion of the
finite UCB1 value. -/
lemma calculateUCB1_of_pulls_ne_zero (arm : MABArm) (T : ℕ) (h : arm.pulls ≠ 0) :
    calculateUCB1 arm T = ((ucbValue arm.avgReward arm.pulls T : ℝ) : EReal) := by
  simp [calculateUCB1, h]

/-- Invariant propagation for C8: with strictly positive rewards, either the
arm is untouched (all three statistics zero) or all three are positive. -/
lemma applyRewards_pos_invariant (rs : List ℚ) :
    ∀ m : MABArm, (∀ x ∈ rs, 0 < x) →
      ((m.pulls = 0 ∧ m.totalReward = 0 ∧ m.avgReward = 0) ∨
        (0 < m.pulls ∧ 0 < m.totalReward ∧ 0 < m.avgReward)) →
      ((applyRewards m rs).pulls = 0 ∧ (applyRewards m rs).totalReward = 0 ∧
          (applyRewards m rs).avgReward = 0) ∨
        (0 < (applyRewards m rs).pulls ∧ 0 < (applyRewards m rs).totalReward ∧
          0 < (applyRewards m rs).avgReward) := by
  induction rs with
  | nil => intro m _ hm; simpa [applyRewards] using hm
  | cons r rs ih =>
    intro m hpos hm
    rw [applyRewards_cons]
    apply ih
    · intro x hx; exact hpos x (List.mem_cons_of_mem _ hx)
    · right
      have hr : 0 < r := hpos r (List.mem_cons_self r rs)
      have htot : 0 ≤ m.totalReward := by
        rcases hm with ⟨_, h2, _⟩ | ⟨_, h2, _⟩
        · exact le_of_eq h2.symm
        · exact le_of_lt h2
      refine ⟨?_, ?_, ?_⟩
      · rw [updateArmReward_pulls]; exact Nat.succ_pos _
      · rw [updateArmReward_totalReward]; linarith
      · rw [updateArmReward_avgReward]
        apply div_pos (by linarith)
        exact_mod_cast Nat.succ_pos m.pulls

/-- Invariant propagation for C10: `alpha + beta - pulls` is preserved by
reward updates. -/
lemma applyRewards_alpha_beta_invariant (rs : List ℚ) :
    ∀ m : MABArm, m.alpha + m.beta = (m.pulls : ℚ) + 2 →
      (applyRewards m rs).alpha + (applyRewards m rs).beta =
        ((applyRewards m rs).pulls : ℚ) + 2 := by
  induction rs with
  | nil => intro m hm; simpa [applyRewards] using hm
  | cons r rs ih =>
    intro m hm
    rw [applyRewards_cons]
    apply ih
    rw [updateArmReward_alpha, updateArmReward_beta, updateArmReward_pulls]
    by_cases h : r ≥ 2 <;> simp [h] <;> linarith

-- ---------------------------------------------------------------------------
-- Claim C1
-- ---------------------------------------------------------------------------

/-- Counterexample for C1: for the freshly-initialised arm (`pulls = 0`), the
scoring step of an allocation cycle does not return `+∞` and does not carry
reason `UCB1` — it takes the cold-start branch and emits a Thompson sample
with reason `THOMPSON_SAMPLING` (shown here for the sampler constantly 0). -/
theorem scoreStep_pulls_zero_cex :
    (scoreStep (fun _ => 0) 0 (initArm "c" "a")).2 = Reason.THOMPSON_SAMPLING ∧
    (scoreStep (fun _ => 0) 0 (initArm "c" "a")).2 ≠ Reason.UCB1 ∧
    (scoreStep (fun _ => 0) 0 (initArm "c" "a")).1 ≠ (⊤ : EReal) := by
  have h : scoreStep (fun _ => 0) 0 (initArm "c" "a") =
      (((0 : ℝ) : EReal), Reason.THOMPSON_SAMPLING) := by
    simp [scoreStep, initArm, COLD_START_THRESHOLD]
  refine ⟨by rw [h], by rw [h]; decide, by rw [h]; exact EReal.coe_ne_top 0⟩

/-- C1 (amended): for every arm with `pulls = 0`, the standalone function
`calculateUCB1` does return `+∞`, but the scoring step of an allocation cycle
classifies such an arm as cold-start (`pulls < 30`), so its score is the
Thompson sample and the decision reason is `THOMPSON_SAMPLING`, not `UCB1`. -/
theorem scoreStep_pulls_zero_thompson (arm : MABArm) (totalPulls : ℕ)
    (sample : MABArm → ℝ) (h : arm.pulls = 0) :
    calculateUCB1 arm totalPulls = ⊤ ∧
    (scoreStep sample totalPulls arm).1 = ((sample arm : ℝ) : EReal) ∧
    (scoreStep sample totalPulls arm).2 = Reason.THOMPSON_SAMPLING := by
  refine ⟨by simp [calculateUCB1, h], ?_, ?_⟩ <;>
    simp [scoreStep, h, COLD_START_THRESHOLD]

/-- Witness for C1's theorem at the concrete fresh arm and constant sampler. -/
theorem scoreStep_pulls_zero_thompson_witness :
    calculateUCB1 (initArm "c" "a") 7 = ⊤ ∧
    (scoreStep (fun _ => (1 : ℝ)) 7 (initArm "c" "a")).1 = ((1 : ℝ) : EReal) ∧
    (scoreStep (fun _ => (1 : ℝ)) 7 (initArm "c" "a")).2 = Reason.THOMPSON_SAMPLING :=
  scoreStep_pulls_zero_thompson (initArm "c" "a") 7 (fun _ => 1) rfl

-- ---------------------------------------------------------------------------
-- Claim C2
-- ---------------------------------------------------------------------------

/-- C2: inside `updateArmReward`, the CUSUM detector uses the pre-update
`avgReward` as baseline (the formulas below mention only the original arm's
fields), computes `newCusumPos = max(0, cusumPositive + (r - avg - 0.5))` and
`newCusumNeg = max(0, cusumNegative - (r - avg - 0.5) - 0.5)`, reports
`changeDetected` exactly when either accumulator exceeds `5.0`, and on
detection both persisted accumulators are exactly `0`. -/
theorem updateArmReward_cusum_spec (arm : MABArm) (r : ℚ) :
    (updateArmReward arm r).2 =
      (decide (max 0 (arm.cusumPositive + (r - arm.avgReward - 1/2)) > 5) ||
        decide (max 0 (arm.cusumNegative - (r - arm.avgReward - 1/2) - 1/2) > 5)) ∧
    (updateArmReward arm r).1.cusumPositive =
      (if (updateArmReward arm r).2 then 0
        else max 0 (arm.cusumPositive + (r - arm.avgReward - 1/2))) ∧
    (updateArmReward arm r).1.cusumNegative =
      (if (updateArmReward arm r).2 then 0
        else max 0 (arm.cusumNegative - (r - arm.avgReward - 1/2) - 1/2)) :=
  ⟨rfl, rfl, rfl⟩

-- ---------------------------------------------------------------------------
-- Claim C3
-- ---------------------------------------------------------------------------

/-- Counterexample for C3: after the first `updateArmReward(reward = 3.0)` on
a fresh arm, the positive CUSUM accumulator is `2.5`, not `0` — the detector
accumulated `3.0 - 0 - 0.5` without detecting. -/
theorem updateArmReward_first_cusum_cex :
    (updateArmReward (initArm "c" "a") 3).1.cusumPositive = 5/2 ∧
    ((5 : ℚ)/2 ≠ 0) := by
  constructor
  · norm_num [updateArmReward, updateCUSUM, initArm, CUSUM_DRIFT_DELTA, CUSUM_THRESHOLD]
  · norm_num

/-- C3 (amended): a single `updateArmReward(reward = 3.0)` on a fresh arm
yields `pulls = 1`, `totalReward = 3`, `avgReward = 3`, `alpha = 2`,
`beta = 1` (success since `3.0 ≥ 2.0`), no detection, and CUSUM accumulators
`cusumPositive = 2.5`, `cusumNegative = 0` (not both `0`). -/
theorem updateArmReward_first_trace :
    (updateArmReward (initArm "c" "a") 3).1.pulls = 1 ∧
    (updateArmReward (initArm "c" "a") 3).1.totalReward = 3 ∧
    (updateArmReward (initArm "c" "a") 3).1.avgReward = 3 ∧
    (updateArmReward (initArm "c" "a") 3).1.alpha = 2 ∧
    (updateArmReward (initArm "c" "a") 3).1.beta = 1 ∧
    (updateArmReward (initArm "c" "a") 3).1.cusumPositive = 5/2 ∧
    (updateArmReward (initArm "c" "a") 3).1.cusumNegative = 0 ∧
    (updateArmReward (initArm "c" "a") 3).2 = false := by
  norm_num [updateArmReward, updateCUSUM, initArm, CUSUM_DRIFT_DELTA, CUSUM_THRESHOLD]

-- ---------------------------------------------------------------------------
-- Claim C4
-- ---------------------------------------------------------------------------

/-- Counterexample for C4: the very first `updateArmReward` on a fresh arm
CAN detect a change: with reward `6.0`, the positive accumulator becomes
`5.5 > 5.0` and `changeDetected` is `true`. -/
theorem updateArmReward_first_detection_cex :
    (updateArmReward (initArm "c" "a") 6).2 = true ∧ (0 : ℚ) ≤ 6 := by
  constructor
  · norm_num [updateArmReward, updateCUSUM, initArm, CUSUM_DRIFT_DELTA, CUSUM_THRESHOLD]
  · norm_num

/-- C4 (amended): on a freshly-initialised arm (baseline `avgReward = 0`,
both accumulators `0`) with non-negative reward, the first `updateArmReward`
reports a change exactly when `reward > 5.5`; in particular no detection is
possible for rewards up to `5.5`. -/
theorem updateArmReward_first_detection_iff (c a : String) (r : ℚ) (h : 0 ≤ r) :
    ((updateArmReward (initArm c a) r).2 = true ↔ 11/2 < r) := by
  have hflag : (updateArmReward (initArm c a) r).2 =
      (decide (max 0 (0 + (r - 0 - 1/2)) > 5) ||
        decide (max 0 (0 - (r - 0 - 1/2) - 1/2) > 5)) := rfl
  rw [hflag]
  simp only [Bool.or_eq_true, decide_eq_true_eq, gt_iff_lt, lt_max_iff]
  constructor
  · rintro ((h5 | h5) | (h5 | h5)) <;> linarith
  · intro hr
    left; right; linarith

/-- Witness for C4's theorem at reward `6`. -/
theorem updateArmReward_first_detection_iff_witness :
    ((updateArmReward (initArm "c" "a") 6).2 = true ↔ 11/2 < (6 : ℚ)) :=
  updateArmReward_first_detection_iff "c" "a" 6 (by norm_num)

-- ---------------------------------------------------------------------------
-- Claim C5
-- ---------------------------------------------------------------------------

/-- Counterexample for C5: with scores `3.5` and `1.5` on a total budget of
`1,000,000`, the raw shares `700,000` and `300,000` are both below the
hardcoded floor `MIN_BUDGET_PAISA = 1,000,000`, so BOTH arms are floored to
`1,000,000`: the higher-scored arm does not receive strictly more. -/
theorem allocateBudgets_small_budget_cex :
    allocateBudgets [Score.fin (7/2), Score.fin (3/2)] 1000000 =
      [1000000, 1000000] ∧
    ¬ ((1000000 : ℤ) > 1000000) := by
  constructor
  · norm_num [allocateBudgets, normalizeScore, jsRound, MIN_BUDGET_PAISA]
  · norm_num

/-- C5 (amended): with scores `3.5` and `1.5`, proportional allocation holds
once the budget is large enough that the `₹10,000` floor does not bind: on a
budget of `10,000,000` paisa the higher-scored arm gets `7,000,000` (exactly
70 percent), strictly more than the lower-scored arm's `3,000,000`; on a
budget of `1,000,000` both arms are floored to equal `1,000,000`. -/
theorem allocateBudgets_proportional :
    allocateBudgets [Score.fin (7/2), Score.fin (3/2)] 10000000 =
      [7000000, 3000000] ∧
    (3000000 : ℤ) < 7000000 ∧
    (7000000 : ℚ) = (7/10) * 10000000 ∧
    allocateBudgets [Score.fin (7/2), Score.fin (3/2)] 1000000 =
      [1000000, 1000000] := by
  refine ⟨?_, by norm_num, by norm_num, ?_⟩ <;>
    norm_num [allocateBudgets, normalizeScore, jsRound, MIN_BUDGET_PAISA]

-- ---------------------------------------------------------------------------
-- Claim C6
-- ---------------------------------------------------------------------------

/-- C6: every arm's allocated budget is
`max(round(totalBudget * normalizedScore / totalScore), MIN_BUDGET_PAISA)`,
the floor applied independently per arm with no redistribution; the allocator
always emits one decision per arm (length preserved, nothing thrown), and for
some inputs (two arms scored `1` on a budget of `100`) the allocated sum
`2,000,000` strictly exceeds the total budget. -/
theorem allocateBudgets_floor_overrun :
    (∀ (scores : List Score) (b : ℚ),
      allocateBudgets scores b =
        scores.map (fun s =>
          max (jsRound (b * (normalizeScore s / (scores.map normalizeScore).sum)))
            MIN_BUDGET_PAISA)) ∧
    (∀ (scores : List Score) (b : ℚ),
      (allocateBudgets scores b).length = scores.length) ∧
    (allocateBudgets [Score.fin 1, Score.fin 1] 100).length = 2 ∧
    (allocateBudgets [Score.fin 1, Score.fin 1] 100).sum = 2000000 ∧
    (100 : ℤ) < 2000000 := by
  refine ⟨fun scores b => rfl, fun scores b => by simp [allocateBudgets], ?_, ?_, by norm_num⟩ <;>
    norm_num [allocateBudgets, normalizeScore, jsRound, MIN_BUDGET_PAISA]

-- ---------------------------------------------------------------------------
-- Claim C7
-- ---------------------------------------------------------------------------

/-- C7: a detecting `updateArmReward` changes nothing except the two CUSUM
accumulators. The statistics `pulls`, `totalReward`, `avgReward`, `alpha`,
`beta` of the result are given by formulas in the input arm alone — identical
to a non-detecting call — while the accumulators are exactly the detector's
outputs, which are both `0` whenever a change was detected. -/
theorem updateArmReward_detection_frame (arm : MABArm) (r : ℚ) :
    (updateArmReward arm r).1.pulls = arm.pulls + 1 ∧
    (updateArmReward arm r).1.totalReward = arm.totalReward + r ∧
    (updateArmReward arm r).1.avgReward =
      (arm.totalReward + r) / ((arm.pulls + 1 : ℕ) : ℚ) ∧
    (updateArmReward arm r).1.alpha =
      arm.alpha + (if decide (r ≥ 2) then 1 else 0) ∧
    (updateArmReward arm r).1.beta =
      arm.beta + (if decide (r ≥ 2) then 0 else 1) ∧
    (updateArmReward arm r).1.cusumPositive = (updateCUSUM arm r).1.cusumPositive ∧
    (updateArmReward arm r).1.cusumNegative = (updateCUSUM arm r).1.cusumNegative ∧
    (updateArmReward arm r).2 = (updateCUSUM arm r).2 ∧
    ((updateArmReward arm r).2 = true →
      (updateArmReward arm r).1.cusumPositive = 0 ∧
        (updateArmReward arm r).1.cusumNegative = 0) := by
  refine ⟨rfl, rfl, rfl, rfl, rfl, rfl, rfl, rfl, fun hdet => ⟨?_, ?_⟩⟩ <;>
    · have h1 : (updateArmReward arm r).1.cusumPositive =
          (if (updateArmReward arm r).2 then 0
            else max 0 (arm.cusumPositive + (r - arm.avgReward - 1/2))) := rfl
      have h2 : (updateArmReward arm r).1.cusumNegative =
          (if (updateArmReward arm r).2 then 0
            else max 0 (arm.cusumNegative - (r - arm.avgReward - 1/2) - 1/2)) := rfl
      simp only [h1, h2, hdet, if_true]

-- ---------------------------------------------------------------------------
-- Claim C8
-- ---------------------------------------------------------------------------

/-- Counterexample for C8: rewards are allowed to be `0` (non-negative, no
clamp), and a single `updateArmReward(reward = 0)` on a fresh arm gives
`pulls = 1` with `totalReward = 0`, breaking `pulls == 0 ⇔ totalReward == 0`. -/
theorem applyRewards_zero_reward_cex :
    (applyRewards (initArm "c" "a") [0]).pulls = 1 ∧
    (applyRewards (initArm "c" "a") [0]).totalReward = 0 ∧
    (∀ x ∈ [(0 : ℚ)], 0 ≤ x) := by
  refine ⟨rfl, ?_, by norm_num⟩
  norm_num [applyRewards, updateArmReward, updateCUSUM, initArm,
    CUSUM_DRIFT_DELTA, CUSUM_THRESHOLD]

/-- C8 (amended): for every arm reachable from a freshly-initialised arm by a
sequence of `updateArmReward` calls with strictly positive rewards, the
equivalences `pulls == 0 ⇔ totalReward == 0 ⇔ avgReward == 0` hold (a zero
reward, though allowed by the engine, breaks the first equivalence). -/
theorem applyRewards_zero_equiv (c a : String) (rs : List ℚ)
    (hpos : ∀ x ∈ rs, 0 < x) :
    ((applyRewards (initArm c a) rs).pulls = 0 ↔
      (applyRewards (initArm c a) rs).totalReward = 0) ∧
    ((applyRewards (initArm c a) rs).totalReward = 0 ↔
      (applyRewards (initArm c a) rs).avgReward = 0) ∧
    ((applyRewards (initArm c a) rs).pulls = 0 ↔
      (applyRewards (initArm c a) rs).avgReward = 0) := by
  have h := applyRewards_pos_invariant rs (initArm c a) hpos
    (Or.inl ⟨rfl, rfl, rfl⟩)
  rcases h with ⟨h1, h2, h3⟩ | ⟨h1, h2, h3⟩
  · rw [h1, h2, h3]
    simp
  · constructor
    · rw [iff_iff_implies_and_implies]
      constructor <;> intro hx
      · exact absurd hx (Nat.pos_iff_ne_zero.mp h1)
      · exact absurd hx h2.ne'
    constructor <;> (rw [iff_iff_implies_and_implies]; constructor <;> intro hx)
    · exact absurd hx h2.ne'
    · exact absurd hx h3.ne'
    · exact absurd hx (Nat.pos_iff_ne_zero.mp h1)
    · exact absurd hx h3.ne'

/-- Witness for C8's theorem at the one-element positive reward sequence. -/
theorem applyRewards_zero_equiv_witness :
    ((applyRewards (initArm "c" "a") [3]).pulls = 0 ↔
      (applyRewards (initArm "c" "a") [3]).totalReward = 0) ∧
    ((applyRewards (initArm "c" "a") [3]).totalReward = 0 ↔
      (applyRewards (initArm "c" "a") [3]).avgReward = 0) ∧
    ((applyRewards (initArm "c" "a") [3]).pulls = 0 ↔
      (applyRewards (initArm "c" "a") [3]).avgReward = 0) :=
  applyRewards_zero_equiv "c" "a" [3] (by norm_num)

-- ---------------------------------------------------------------------------
-- Claim C9
-- ---------------------------------------------------------------------------

/-- Counterexample for C9: the claim asserts strict decrease in `pulls` for
every `totalPulls ≥ 1`, but at `totalPulls = 1` the exploration bonus is
`2 * sqrt(ln 1 / pulls) = 0`, so the score is constant in `pulls`: arms with
1 and 2 pulls (same `avgReward`) score equally. -/
theorem calculateUCB1_log_one_cex :
    calculateUCB1 { initArm "c" "a" with pulls := 2 } 1 =
      calculateUCB1 { initArm "c" "a" with pulls := 1 } 1 ∧
    ¬ (calculateUCB1 { initArm "c" "a" with pulls := 2 } 1 <
        calculateUCB1 { initArm "c" "a" with pulls := 1 } 1) := by
  have h : ∀ p : ℕ, p ≠ 0 →
      calculateUCB1 { initArm "c" "a" with pulls := p } 1 = ((0 : ℝ) : EReal) := by
    intro p hp
    rw [calculateUCB1_of_pulls_ne_zero _ _ hp]
    norm_num [ucbValue, initArm, EXPLORATION_CONSTANT]
  rw [h 2 (by norm_num), h 1 (by norm_num)]
  exact ⟨rfl, lt_irrefl _⟩

/-- C9 (amended): the UCB1 score is a function of `(avgReward, pulls,
totalPulls)` only (two arms agreeing on those fields score identically); it is
strictly decreasing in `pulls` provided `totalPulls ≥ 2` (at `totalPulls = 1`
the bonus vanishes and the score is constant in `pulls`); and raising
`avgReward` by `Δ` raises the score by exactly `Δ`. -/
theorem calculateUCB1_properties :
    (∀ (a1 a2 : MABArm) (T : ℕ), a1.avgReward = a2.avgReward →
      a1.pulls = a2.pulls → calculateUCB1 a1 T = calculateUCB1 a2 T) ∧
    (∀ (arm : MABArm) (T p q : ℕ), 2 ≤ T → 1 ≤ p → p < q →
      calculateUCB1 { arm with pulls := q } T <
        calculateUCB1 { arm with pulls := p } T) ∧
    (∀ (arm : MABArm) (T : ℕ) (a d : ℚ), arm.pulls ≠ 0 →
      calculateUCB1 { arm with avgReward := a + d } T =
        calculateUCB1 { arm with avgReward := a } T + ((d : ℝ) : EReal)) := by
  refine ⟨?_, ?_, ?_⟩
  · intro a1 a2 T h1 h2
    simp only [calculateUCB1, h1, h2]
  · intro arm T p q hT hp hpq
    have hp0 : ({ arm with pulls := p } : MABArm).pulls ≠ 0 := by
      show p ≠ 0; omega
    have hq0 : ({ arm with pulls := q } : MABArm).pulls ≠ 0 := by
      show q ≠ 0; omega
    rw [calculateUCB1_of_pulls_ne_zero _ _ hq0, calculateUCB1_of_pulls_ne_zero _ _ hp0]
    rw [EReal.coe_lt_coe_iff]
    show ucbValue arm.avgReward q T < ucbValue arm.avgReward p T
    unfold ucbValue EXPLORATION_CONSTANT
    have hlog : 0 < Real.log T := by
      apply Real.log_pos
      exact_mod_cast (by omega : 1 < T)
    have hppos : (0 : ℝ) < p := by exact_mod_cast (by omega : 0 < p)
    have hpq2 : (p : ℝ) < q := by exact_mod_cast hpq
    have hdiv : Real.log T / (q : ℝ) < Real.log T / (p : ℝ) :=
      div_lt_div_of_pos_left hlog hppos hpq2
    have hnn : 0 ≤ Real.log T / (q : ℝ) :=
      div_nonneg hlog.le (Nat.cast_nonneg q)
    have hsqrt := Real.sqrt_lt_sqrt hnn hdiv
    linarith
  · intro arm T a d h
    have h1 : ({ arm with avgReward := a + d } : MABArm).pulls ≠ 0 := h
    have h2 : ({ arm with avgReward := a } : MABArm).pulls ≠ 0 := h
    rw [calculateUCB1_of_pulls_ne_zero _ _ h1, calculateUCB1_of_pulls_ne_zero _ _ h2]
    rw [← EReal.coe_add]
    congr 1
    show ucbValue (a + d) arm.pulls T = ucbValue a arm.pulls T + (d : ℝ)
    unfold ucbValue
    push_cast
    ring

/-- Witness for C9's theorem: its three components applied at concrete arms
(`totalPulls = 5` and `2`, `pulls` 1 and 2, shift `3 + 2`). -/
theorem calculateUCB1_properties_witness :
    calculateUCB1 { initArm "c" "a" with pulls := 3 } 5 =
      calculateUCB1 { initArm "d" "b" with pulls := 3, alpha := 7 } 5 ∧
    calculateUCB1 { { initArm "c" "a" with pulls := 1 } with pulls := 2 } 2 <
      calculateUCB1 { { initArm "c" "a" with pulls := 1 } with pulls := 1 } 2 ∧
    calculateUCB1
        { { initArm "c" "a" with pulls := 1 } with avgReward := 3 + 2 } 4 =
      calculateUCB1 { { initArm "c" "a" with pulls := 1 } with avgReward := 3 } 4 +
        (((2 : ℚ) : ℝ) : EReal) :=
  ⟨calculateUCB1_properties.1 _ _ 5 rfl rfl,
    calculateUCB1_properties.2.1 { initArm "c" "a" with pulls := 1 } 2 1 2
      (by norm_num) (by norm_num) (by norm_num),
    calculateUCB1_properties.2.2 { initArm "c" "a" with pulls := 1 } 4 3 2
      (by norm_num [initArm])⟩

-- ---------------------------------------------------------------------------
-- Claim C10
-- ---------------------------------------------------------------------------

/-- C10: for every arm reachable by a sequence of `updateArmReward` calls
from a freshly-initialised arm, `alpha + beta = pulls + 2`: each observation
increments exactly one of `alpha`, `beta` alongside `pulls`, starting from
`alpha = beta = 1`, `pulls = 0`. -/
theorem applyRewards_alpha_beta_pulls (c a : String) (rs : List ℚ) :
    (applyRewards (initArm c a) rs).alpha + (applyRewards (initArm c a) rs).beta =
      ((applyRewards (initArm c a) rs).pulls : ℚ) + 2 :=
  applyRewards_alpha_beta_invariant rs (initArm c a) (by norm_num [initArm])
